import Mathlib

/-!
Shallow embedding of the simulation core of `src/snake_game.py`
(grid-based multi-agent snake game).

Conventions of the embedding:
* grid cells are pairs of integers (python tuples of ints);
* wall-clock times and durations (python floats fed by `time.time()`)
  are rationals;
* python's `random` calls are modelled by explicit streams: a stream of
  grid cells (values of `random.randint(0, GRID_WIDTH - 1)` paired with
  `random.randint(0, GRID_HEIGHT - 1)`) for food respawning, and a
  stream of (power-up type, cell) pairs for the power-up spawner;
* the unbounded `while True` retry loop of `Game.respawn_food` is
  modelled with explicit fuel, `none` meaning the loop has not finished
  within the given number of attempts;
* per-snake state follows the fields of the python `Snake` class; the
  `power_ups` dict (power-up type -> expiry time) is modelled as a
  function into `Option ℚ`.
-/

/-! ## Constants and basic data -/

/-- Grid cell, a pair of integer coordinates. -/
abbrev Cell := Int × Int

/-- `WINDOW_WIDTH` constant of the source. -/
def WINDOW_WIDTH : Int := 1200

/-- `WINDOW_HEIGHT` constant of the source. -/
def WINDOW_HEIGHT : Int := 800

/-- `GRID_SIZE` constant of the source. -/
def GRID_SIZE : Int := 20

/-- `GRID_WIDTH = WINDOW_WIDTH // GRID_SIZE` (= 60). -/
def GRID_WIDTH : Int := WINDOW_WIDTH / GRID_SIZE

/-- `GRID_HEIGHT = WINDOW_HEIGHT // GRID_SIZE` (= 40). -/
def GRID_HEIGHT : Int := WINDOW_HEIGHT / GRID_SIZE

/-- The `PowerUpType` enumeration of the source. -/
inductive PowerUpType where
  | speed_boost
  | slow_down
  | double_points
  | shrink
  | wall_phase
  | multiplier
deriving DecidableEq, Repr

/-- The payload of the `Difficulty` enumeration values:
`{"speed": ..., "multiplier": ..., "powerups": ...}`. -/
structure Diff where
  speed : ℚ
  multiplier : ℚ
  powerups : Bool
deriving DecidableEq, Repr

/-- `Difficulty.EASY.value`. -/
def EASY : Diff := ⟨8, 1, true⟩

/-- `Difficulty.MEDIUM.value`. -/
def MEDIUM : Diff := ⟨12, 3/2, true⟩

/-- `Difficulty.HARD.value`. -/
def HARD : Diff := ⟨18, 2, false⟩

/-! ## Snakes -/

/-- The simulation-relevant state of the python `Snake` class
(rendering-only fields `color`, `controls`, `last_move_time`,
`trail_particles` are omitted). -/
structure Snake where
  player_id : ℕ
  positions : List Cell
  direction : Cell
  grow_pending : ℕ
  score : ℤ
  alive : Bool
  power_ups : PowerUpType → Option ℚ
  invulnerable_time : ℚ
  speed_multiplier : ℚ
  wall_phase : Bool

/-- `Snake.move` of the source, lines 192-221: returns the updated snake
and the boolean the method returns (`True` = survived). -/
def Snake.move (W H : Int) (s : Snake) : Snake × Bool :=
  if s.alive = false then (s, true)
  else
    let hd := s.positions.headI
    let nh : Cell := (hd.1 + s.direction.1, hd.2 + s.direction.2)
    if s.wall_phase = false ∧ (nh.1 < 0 ∨ W ≤ nh.1 ∨ nh.2 < 0 ∨ H ≤ nh.2) then
      ({ s with alive := false }, false)
    else
      let nh2 : Cell := if s.wall_phase = true then (nh.1 % W, nh.2 % H) else nh
      if s.invulnerable_time ≤ 0 ∧ nh2 ∈ s.positions then
        ({ s with alive := false }, false)
      else
        let ps := nh2 :: s.positions
        if 0 < s.grow_pending then
          ({ s with positions := ps, grow_pending := s.grow_pending - 1 }, true)
        else
          ({ s with positions := ps.dropLast }, true)

/-- `Snake.grow` of the source. -/
def Snake.grow (s : Snake) (amount : ℕ) : Snake :=
  { s with grow_pending := s.grow_pending + amount }

/-- `Snake.add_power_up` of the source, lines 231-243: store the expiry
`current_time + duration` under the type, then run the type's structural
side effect. -/
def Snake.add_power_up (s : Snake) (t : PowerUpType) (duration now : ℚ) : Snake :=
  let s1 : Snake :=
    { s with power_ups := fun t' => if t' = t then some (now + duration) else s.power_ups t' }
  match t with
  | .speed_boost => { s1 with speed_multiplier := 2 }
  | .slow_down => { s1 with speed_multiplier := 1/2 }
  | .shrink =>
      if 3 < s1.positions.length then
        { s1 with positions := s1.positions.take (s1.positions.length / 2) }
      else s1
  | .wall_phase => { s1 with wall_phase := true, invulnerable_time := 2 }
  | _ => s1

/-- `Snake.remove_power_up` of the source, lines 245-254. -/
def Snake.remove_power_up (s : Snake) (t : PowerUpType) : Snake :=
  match s.power_ups t with
  | none => s
  | some _ =>
    let s1 : Snake := { s with power_ups := fun t' => if t' = t then none else s.power_ups t' }
    match t with
    | .speed_boost => { s1 with speed_multiplier := 1 }
    | .slow_down => { s1 with speed_multiplier := 1 }
    | .wall_phase => { s1 with wall_phase := false }
    | _ => s1

/-- A convenient concrete snake for closed evaluations. -/
def mkSnake (pid : ℕ) (ps : List Cell) (dir : Cell) : Snake :=
  { player_id := pid, positions := ps, direction := dir, grow_pending := 0,
    score := 0, alive := true, power_ups := fun _ => none,
    invulnerable_time := 0, speed_multiplier := 1, wall_phase := false }

/-- Iterated `Snake.move`, keeping only the snake. -/
def advanceN (W H : Int) : ℕ → Snake → Snake
  | 0, s => s
  | n + 1, s => advanceN W H n (Snake.move W H s).1

/-! ## Power-up spawner -/

/-- The `PowerUp` dataclass (the `color` field is omitted: it is a pure
function of `type` via `color_map` and plays no simulation role). -/
structure PowerUp where
  type : PowerUpType
  position : Cell
  duration : ℚ
  spawn_time : ℚ
deriving DecidableEq, Repr

/-- The `PowerUpManager` class.  `spawn_interval` is the constant 10. -/
structure PowerUpManager where
  active_powerups : List PowerUp
  spawn_timer : ℚ
deriving DecidableEq, Repr

/-- `spawn_interval` of the source (seconds). -/
def spawn_interval : ℚ := 10

/-- Stream of outcomes of the two `random` calls of
`PowerUpManager.spawn_powerup`: `random.choice(list(PowerUpType))` and the
random cell. -/
abbrev SpawnStream := ℕ → PowerUpType × Fin 60 × Fin 40

/-- `PowerUpManager.spawn_powerup` of the source, lines 331-354: a power-up
of the drawn type at the drawn cell (no occupancy check of any kind),
lifetime-relevant fields `duration = 5.0` and the current spawn time. -/
def spawnPowerup (rng : SpawnStream) (k : ℕ) (now : ℚ) : PowerUp :=
  { type := (rng k).1,
    position := ((((rng k).2.1 : ℕ) : Int), (((rng k).2.2 : ℕ) : Int)),
    duration := 5,
    spawn_time := now }

/-- `PowerUpManager.update` of the source, lines 319-329: accumulate `dt`
into the spawn timer, drop power-ups aged 15s or more, then (if the timer
exceeds the 10s interval and fewer than 3 remain) append one freshly drawn
power-up and reset the timer.  Returns the manager and the next unused
stream index. -/
def PowerUpManager.update (m : PowerUpManager) (dt now : ℚ) (rng : SpawnStream)
    (k : ℕ) : PowerUpManager × ℕ :=
  let timer := m.spawn_timer + dt
  let kept := m.active_powerups.filter fun p => decide (now - p.spawn_time < 15)
  if timer > spawn_interval ∧ kept.length < 3 then
    ({ active_powerups := kept ++ [spawnPowerup rng k now], spawn_timer := 0 }, k + 1)
  else
    ({ active_powerups := kept, spawn_timer := timer }, k)

/-- `PowerUpManager.check_collision` of the source, lines 356-361: find and
remove the first active power-up at the given cell, if any. -/
def PowerUpManager.check_collision (m : PowerUpManager) (c : Cell) :
    Option PowerUp × PowerUpManager :=
  match m.active_powerups.find? (fun p => decide (p.position = c)) with
  | some p => (some p, { m with active_powerups := m.active_powerups.erase p })
  | none => (none, m)

/-! ## Food and its respawn loop -/

/-- The `Food` entity (position and point value; `value` is always 10). -/
structure Food where
  position : Cell
  value : ℤ
deriving DecidableEq, Repr

/-- Stream of outcomes of `Food.generate_position`, i.e. of the pair
`(random.randint(0, GRID_WIDTH - 1), random.randint(0, GRID_HEIGHT - 1))`. -/
abbrev CellStream := ℕ → Fin 60 × Fin 40

/-- Convert the k-th random draw into a grid cell. -/
def genCell (rng : CellStream) (k : ℕ) : Cell :=
  ((((rng k).1 : ℕ) : Int), (((rng k).2 : ℕ) : Int))

/-- The occupancy test of `Game.respawn_food`: a cell is free when no
snake of the roster holds it. -/
def cellFree (snakes : List Snake) (c : Cell) : Bool :=
  snakes.all fun s => decide (c ∉ s.positions)

/-- The body of `Game.respawn_food` (lines 523-532): an unbounded
`while True` loop that redraws a random cell until one free of every
snake is found.  `fuel` bounds how many iterations we unfold; `none`
means the loop has not terminated within `fuel` attempts.  On success
it returns the chosen cell together with the next unused stream index. -/
def respawnSearch (rng : CellStream) (snakes : List Snake) :
    ℕ → ℕ → Option (Cell × ℕ)
  | 0, _ => none
  | fuel + 1, k =>
      if cellFree snakes (genCell rng k) then some (genCell rng k, k + 1)
      else respawnSearch rng snakes fuel (k + 1)

/-- Termination of the respawn loop: some number of iterations suffices. -/
def respawnTerminates (rng : CellStream) (snakes : List Snake) (k : ℕ) : Prop :=
  ∃ fuel, (respawnSearch rng snakes fuel k).isSome = true

/-- Every in-range grid cell, as produced by nested loops over x then y. -/
def allCells : List Cell :=
  (List.range 60).flatMap fun x => (List.range 40).map fun y => ((x : Int), (y : Int))

/-- A snake occupying the entire 60×40 grid. -/
def boardFillingSnake : Snake := mkSnake 1 allCells (1, 0)

/-- Termination of the respawn loop on the fully occupied board, for some
random stream. -/
def respawnEscapesFullBoard : Prop :=
  ∃ rng : CellStream, respawnTerminates rng [boardFillingSnake] 0

/-! ## One simulation tick (the body of `Game.update` under
`if self.move_timer >= move_interval`, lines 613-684) -/

/-- Points awarded for a food pickup (lines 637-641):
`int(food.value * difficulty.multiplier)`, doubled when the snake's
power-up dict holds a double-points entry.  For the nonnegative values
arising in the game, python's `int()` truncation agrees with the floor
taken here. -/
def pickupPoints (diff : Diff) (s : Snake) (value : ℤ) : ℤ :=
  let points := ⌊(value : ℚ) * diff.multiplier⌋
  if (s.power_ups PowerUpType.double_points).isSome then points * 2 else points

/-- The per-snake effect of eating the food (lines 636-643):
`grow(2)` and the score award. -/
def eatFood (diff : Diff) (food : Food) (s : Snake) : Snake :=
  let s1 := s.grow 2
  { s1 with score := s1.score + pickupPoints diff s1 food.value }

/-- The food-pickup loop of the tick (lines 634-657).  It runs over the
`alive_snakes` snapshot taken *before* the movement loop, here encoded as
the roster zipped with its start-of-tick alive mask; `roster` is the full
post-move roster, which `respawn_food` consults for occupancy.  A pickup
respawns the food, consuming random draws; `none` propagates a respawn
search that did not finish within `fuel` attempts. -/
def foodPhase (diff : Diff) (roster : List Snake) (rng : CellStream) (fuel : ℕ) :
    List (Snake × Bool) → Food → ℕ → Option (List Snake × Food × ℕ)
  | [], food, k => some ([], food, k)
  | (s, wasAlive) :: rest, food, k =>
    if wasAlive = true ∧ s.positions.headI = food.position then
      match respawnSearch rng roster fuel k with
      | none => none
      | some (c, k1) =>
        match foodPhase diff roster rng fuel rest { food with position := c } k1 with
        | none => none
        | some (l, f, k2) => some (eatFood diff food s :: l, f, k2)
    else
      match foodPhase diff roster rng fuel rest food k with
      | none => none
      | some (l, f, k2) => some (s :: l, f, k2)

/-- The power-up pickup loop of the tick (lines 660-665): for each snake of
the snapshot (when the difficulty enables power-ups), collect the first
active power-up at its head cell and apply its effect. -/
def powerupPhase (diff : Diff) (now : ℚ) :
    List (Snake × Bool) → PowerUpManager → List Snake × PowerUpManager
  | [], pm => ([], pm)
  | (s, wasAlive) :: rest, pm =>
    if diff.powerups = true ∧ wasAlive = true then
      match pm.check_collision s.positions.headI with
      | (some pu, pm1) =>
        let r := powerupPhase diff now rest pm1
        (s.add_power_up pu.type pu.duration now :: r.1, r.2)
      | (none, pm1) =>
        let r := powerupPhase diff now rest pm1
        (s :: r.1, r.2)
    else
      let r := powerupPhase diff now rest pm
      (s :: r.1, r.2)

/-- Does the head cell occur in the body of a snapshot member with running
index `j ≠ i`?  (`j` starts at `n`; mirrors the inner loop of lines
669-674.) -/
def hitsOther (head : Cell) (i : ℕ) : List (Snake × Bool) → ℕ → Bool
  | [], _ => false
  | (t, wasAlive) :: rest, j =>
    (wasAlive && decide (j ≠ i) && decide (head ∈ t.positions)) ||
      hitsOther head i rest (j + 1)

/-- One pass of the snake-to-snake collision loop: the element with running
index `i` is killed when it is in the snapshot, its invulnerability is
spent, and its head lies in the body of a distinct snapshot member. -/
def collisionStepAll (pairs : List (Snake × Bool)) :
    List (Snake × Bool) → ℕ → List Snake
  | [], _ => []
  | (s, wasAlive) :: rest, i =>
    (if wasAlive = true ∧ s.invulnerable_time ≤ 0 ∧
        hitsOther s.positions.headI i pairs 0 = true
     then { s with alive := false } else s) :: collisionStepAll pairs rest (i + 1)

/-- The snake-to-snake collision step of the tick (lines 667-674), gated by
multiplayer mode and a snapshot of more than one member. -/
def collisionPhase (multiplayer : Bool) (pairs : List (Snake × Bool)) : List Snake :=
  if multiplayer = true ∧ 1 < (pairs.filter fun p => p.2).length then
    collisionStepAll pairs pairs 0
  else
    pairs.map fun p => p.1

/-- The fold step of python's `max(snakes, key=lambda s: s.score)`:
a later element replaces the current best only when strictly greater. -/
def pyfold (best s : Snake) : Snake :=
  if best.score < s.score then s else best

/-- Python's `max(snakes, key=lambda s: s.score)`: the first element
attaining the maximal score. -/
def pymaxScore : List Snake → Option Snake
  | [] => none
  | x :: xs => some (xs.foldl pyfold x)

/-- The game-over check of the tick (lines 677-684): when no snake of the
roster is alive, report game over and the recorded high score — the
max-score snake's score in multiplayer, the first snake's in single
player.  The boolean in the recorded pair is the multiplayer flag. -/
def recordOutcome (multiplayer : Bool) (snakes : List Snake) :
    Bool × Option (ℤ × Bool) :=
  if snakes.all (fun s => !s.alive) then
    (true,
     if multiplayer = true then
       (pymaxScore snakes).map fun w => (w.score, true)
     else
       snakes.head?.map fun s => (s.score, false))
  else (false, none)

/-- The outcome of one tick. -/
structure TickResult where
  snakes : List Snake
  food : Food
  foodIdx : ℕ
  pm : PowerUpManager
  gameOver : Bool
  recorded : Option (ℤ × Bool)

/-- The start-of-tick snapshot mask: `alive_snakes = [s for s in self.snakes
if s.alive]` taken *before* the movement loop (line 616). -/
def maskOf (snakes : List Snake) : List Bool :=
  snakes.map fun s => s.alive

/-- The roster after the movement loop (lines 618-619); `move` is the
identity on dead snakes, so mapping it over the whole roster equals the
python loop over `alive_snakes` only. -/
def movedOf (snakes : List Snake) : List Snake :=
  snakes.map fun s => (Snake.move GRID_WIDTH GRID_HEIGHT s).1

/-- One simulation tick, lines 613-684 of the source: snapshot the alive
mask, move every snake, run the food loop, the power-up loop, and the
collision loop over the snapshot, then the game-over check over the whole
roster.  `none` signals a food respawn that did not finish within `fuel`
attempts (in python, an unterminated `while True`). -/
def tick (diff : Diff) (multiplayer : Bool) (snakes : List Snake) (food : Food)
    (pm : PowerUpManager) (now : ℚ) (rng : CellStream) (k fuel : ℕ) :
    Option TickResult :=
  match foodPhase diff (movedOf snakes) rng fuel
      ((movedOf snakes).zip (maskOf snakes)) food k with
  | none => none
  | some (fed, food1, k1) =>
    let pr := powerupPhase diff now (fed.zip (maskOf snakes)) pm
    let coll := collisionPhase multiplayer (pr.1.zip (maskOf snakes))
    let ro := recordOutcome multiplayer coll
    some { snakes := coll, food := food1, foodIdx := k1, pm := pr.2,
           gameOver := ro.1, recorded := ro.2 }

/-- The roster built by `Game.reset_game` (lines 487-521): player 1, and in
multiplayer also player 2 heading left. -/
def resetSnakes (multiplayer : Bool) : List Snake :=
  let snake1 := mkSnake 1 [(GRID_WIDTH / 4, GRID_HEIGHT / 2)] (1, 0)
  if multiplayer then
    [snake1, mkSnake 2 [(3 * GRID_WIDTH / 4, GRID_HEIGHT / 2)] (-1, 0)]
  else [snake1]

/-! ## Concrete states used by witnesses and counterexamples -/

/-- The single agent of the spec's blocking-wall scenario:
at (2,5) heading (1,0). -/
def demoSnake : Snake := mkSnake 1 [((2 : Int), (5 : Int))] (1, 0)

/-- A length-10 snake in a straight line, used to exercise shrink. -/
def tenSnake : Snake :=
  mkSnake 1 [((10 : Int), (5 : Int)), (9, 5), (8, 5), (7, 5), (6, 5),
             (5, 5), (4, 5), (3, 5), (2, 5), (1, 5)] (1, 0)

/-- A dead snake, for the dead-agent frame property. -/
def deadSnake : Snake :=
  { mkSnake 2 [((4 : Int), (4 : Int)), (3, 4)] (1, 0) with alive := false }

/-- Constant spawner stream drawing a speed boost at cell (5,5). -/
def spawnAtFive : SpawnStream := fun _ => (PowerUpType.speed_boost, 5, 5)

/-- A snake sitting on cell (5,5). -/
def snakeOnFive : Snake := mkSnake 1 [((5 : Int), (5 : Int)), (4, 5)] (1, 0)

/-- Constant random stream used by witnesses: always draws (1,1). -/
def rngOneOne : CellStream := fun _ => (1, 1)

/-- An empty power-up manager. -/
def emptyPM : PowerUpManager := ⟨[], 0⟩

/-- Food far from every concrete snake used below. -/
def farFood : Food := ⟨((30 : Int), (30 : Int)), 10⟩

/-- A snake about to run into the left wall, with the food under its head. -/
def wallEater : Snake := mkSnake 1 [((0 : Int), (5 : Int))] (-1, 0)

/-- Food placed at `wallEater`'s head cell. -/
def foodAtHead : Food := ⟨((0 : Int), (5 : Int)), 10⟩

/-- Snake A of the stale-body collision scenario: about to step onto (2,0). -/
def passA : Snake := mkSnake 1 [((1 : Int), (0 : Int))] (1, 0)

/-- Snake B of the stale-body collision scenario: on (2,0), about to die in
the top wall. -/
def passB : Snake := mkSnake 2 [((2 : Int), (0 : Int))] (0, -1)

/-- Post-move snake A of the head-swap pass-through scenario. -/
def swapA : Snake := mkSnake 1 [((2 : Int), (0 : Int))] (1, 0)

/-- Post-move snake B of the head-swap pass-through scenario. -/
def swapB : Snake := mkSnake 2 [((1 : Int), (0 : Int))] (-1, 0)

/-- A manager holding one shrink power-up at (11,5), the cell `tenSnake`
moves onto. -/
def shrinkPM : PowerUpManager := ⟨[⟨PowerUpType.shrink, (11, 5), 5, 0⟩], 0⟩

/-- A dead snake with id 1 and score 5. -/
def tieA : Snake := { mkSnake 1 [((0 : Int), (0 : Int))] (1, 0) with score := 5, alive := false }

/-- A dead snake with id 2 and score 5. -/
def tieB : Snake := { mkSnake 2 [((3 : Int), (3 : Int))] (1, 0) with score := 5, alive := false }

/-- A snake whose head sits on the food, for the food-phase witness. -/
def wEater : Snake := mkSnake 1 [((3 : Int), (3 : Int))] (1, 0)

/-- Food under `wEater`'s head. -/
def wFood : Food := ⟨((3 : Int), (3 : Int)), 10⟩

/-- The tick of the C8 witness: one safe snake, no power-ups. -/
def c8run : Option TickResult :=
  tick EASY false [demoSnake] farFood emptyPM 0 rngOneOne 0 3

/-- The result of `c8run` (defaulting on `none`, which does not occur). -/
def c8out : TickResult :=
  c8run.getD ⟨[], ⟨(0, 0), 0⟩, 0, emptyPM, false, none⟩

/-! ## Theorems -/

/-- `move` on a dead snake: the python method returns `True` immediately,
mutating nothing. -/
theorem move_of_dead (W H : Int) (s : Snake) (h : s.alive = false) :
    Snake.move W H s = (s, true) := by
  unfold Snake.move
  simp [h]

/-- C10: `move()` on a snake whose `alive` flag is false returns `True`
(reported as survived) and leaves the whole snake state unchanged. -/
theorem move_dead_is_identity (W H : Int) (s : Snake) (h : s.alive = false) :
    Snake.move W H s = (s, true) :=
  move_of_dead W H s h

/-- Witness for C10 at a concrete dead snake. -/
theorem move_dead_is_identity_witness :
    deadSnake.alive = false ∧ Snake.move GRID_WIDTH GRID_HEIGHT deadSnake = (deadSnake, true) :=
  ⟨rfl, move_dead_is_identity GRID_WIDTH GRID_HEIGHT deadSnake rfl⟩

/-- C6 (amended): for an alive agent with wall-phase inactive, a move whose
new head `(hx + dx, hy + dy)` leaves `[0,W) × [0,H)` sets the agent
not-alive, leaves the body unchanged, and returns `False`.  (The spec's
concrete scenario is off by one: from (2,5) heading (1,0) on a 10×10 grid
the head reaches (9,5) after 7 advances and the 8th kills the agent.) -/
theorem move_blocking_wall_death (W H : Int) (s : Snake)
    (ha : s.alive = true) (hw : s.wall_phase = false)
    (hout : s.positions.headI.1 + s.direction.1 < 0 ∨
            W ≤ s.positions.headI.1 + s.direction.1 ∨
            s.positions.headI.2 + s.direction.2 < 0 ∨
            H ≤ s.positions.headI.2 + s.direction.2) :
    Snake.move W H s = ({ s with alive := false }, false) ∧
      (Snake.move W H s).1.positions = s.positions := by
  unfold Snake.move
  simp [ha, hw, hout]

/-- C6 counterexample: on a 10×10 grid, the agent of the spec scenario is
already dead after 8 advances (its head would be (10,5) on the 8th move),
refuting "survives 8 consecutive advances reaching head (9,5)". -/
theorem wall_scenario_eighth_advance_kills :
    (advanceN 10 10 8 demoSnake).alive = false := by decide

/-- Witness for C6 at the (corrected) concrete scenario: after 7 advances the
head is (9,5) and the agent is alive in blocking mode; the 8th advance,
whose head would be (10,5), kills it. -/
theorem move_blocking_wall_death_witness :
    ((advanceN 10 10 7 demoSnake).positions = [((9 : Int), (5 : Int))] ∧
     (advanceN 10 10 7 demoSnake).alive = true ∧
     (advanceN 10 10 7 demoSnake).wall_phase = false ∧
     (10 : Int) ≤ (advanceN 10 10 7 demoSnake).positions.headI.1 +
        (advanceN 10 10 7 demoSnake).direction.1) ∧
    (Snake.move 10 10 (advanceN 10 10 7 demoSnake)).1.alive = false := by
  refine ⟨by decide, ?_⟩
  have h := move_blocking_wall_death 10 10 (advanceN 10 10 7 demoSnake)
    (by decide) (by decide) (Or.inr (Or.inl (by decide)))
  rw [h.1]

/-- C2 (amended): for every power-up type other than shrink, reapplying the
type is absorbed into a single application with the later expiry: the whole
resulting snake state (expiry map, speed multiplier, body, wall-phase flag)
is that of one application at the later time. -/
theorem add_power_up_reapply (s : Snake) (t : PowerUpType) (d n1 n2 : ℚ)
    (ht : t ≠ PowerUpType.shrink) :
    (s.add_power_up t d n1).add_power_up t d n2 = s.add_power_up t d n2 := by
  have hmap : ∀ (m : PowerUpType → Option ℚ),
      (fun t' => if t' = t then some (n2 + d) else
        (fun t'' => if t'' = t then some (n1 + d) else m t'') t') =
      (fun t' => if t' = t then some (n2 + d) else m t') := by
    intro m
    funext t'
    by_cases h : t' = t <;> simp [h]
  cases t with
  | speed_boost => unfold Snake.add_power_up; simp only; rw [hmap]
  | slow_down => unfold Snake.add_power_up; simp only; rw [hmap]
  | double_points => unfold Snake.add_power_up; simp only; rw [hmap]
  | shrink => exact absurd rfl ht
  | wall_phase => unfold Snake.add_power_up; simp only; rw [hmap]
  | multiplier => unfold Snake.add_power_up; simp only; rw [hmap]

/-- C2 counterexample: reapplying shrink duplicates its structural effect.
On a body of length 10, one application leaves 5 segments, but a second
application (before expiry) halves again to 2 segments, so the state after
reapplication differs from the state after a single application. -/
theorem add_power_up_shrink_restacks :
    ((tenSnake.add_power_up PowerUpType.shrink 5 0).add_power_up
        PowerUpType.shrink 5 1).positions.length = 2 ∧
    (tenSnake.add_power_up PowerUpType.shrink 5 1).positions.length = 5 := by
  constructor <;> rfl

/-- Witness for C2 at a concrete snake and the speed-boost type. -/
theorem add_power_up_reapply_witness :
    PowerUpType.speed_boost ≠ PowerUpType.shrink ∧
    (tenSnake.add_power_up PowerUpType.speed_boost 5 0).add_power_up
        PowerUpType.speed_boost 5 1 =
      tenSnake.add_power_up PowerUpType.speed_boost 5 1 :=
  ⟨by decide, add_power_up_reapply tenSnake PowerUpType.speed_boost 5 0 1 (by decide)⟩

/-- C3 (amended): `update` keeps exactly the power-ups younger than 15s
(so one aged exactly 15s is also discarded), appends one power-up exactly
when the accumulated timer exceeds the 10s interval and fewer than 3
survive the age filter, and resets the timer on spawn; the new power-up
carries the drawn type and the drawn cell as-is — no freeness check
against snakes or food is performed (the spawner never sees them). -/
theorem powerup_update_characterization (m : PowerUpManager) (dt now : ℚ)
    (rng : SpawnStream) (k : ℕ) :
    (∀ p : PowerUp, p ∈ (m.update dt now rng k).1.active_powerups ↔
      ((p ∈ m.active_powerups ∧ now - p.spawn_time < 15) ∨
       ((m.spawn_timer + dt > spawn_interval ∧
         (m.active_powerups.filter fun q => decide (now - q.spawn_time < 15)).length < 3) ∧
        p = spawnPowerup rng k now))) ∧
    ((m.update dt now rng k).1.spawn_timer =
      if m.spawn_timer + dt > spawn_interval ∧
         (m.active_powerups.filter fun q => decide (now - q.spawn_time < 15)).length < 3
       then 0 else m.spawn_timer + dt) ∧
    ((spawnPowerup rng k now).position =
      ((((rng k).2.1 : ℕ) : Int), (((rng k).2.2 : ℕ) : Int))) := by
  unfold PowerUpManager.update
  by_cases h : m.spawn_timer + dt > spawn_interval ∧
      (m.active_powerups.filter fun q => decide (now - q.spawn_time < 15)).length < 3
  · rw [if_pos h]
    refine ⟨fun p => ?_, by simp [h], rfl⟩
    simp only [List.mem_append, List.mem_filter, List.mem_singleton, decide_eq_true_eq]
    constructor
    · rintro (⟨hp, hage⟩ | hp)
      · exact Or.inl ⟨hp, hage⟩
      · exact Or.inr ⟨h, hp⟩
    · rintro (⟨hp, hage⟩ | ⟨_, hp⟩)
      · exact Or.inl ⟨hp, hage⟩
      · exact Or.inr hp
  · rw [if_neg h]
    refine ⟨fun p => ?_, by simp [h], rfl⟩
    simp only [List.mem_filter, decide_eq_true_eq]
    constructor
    · rintro ⟨hp, hage⟩
      exact Or.inl ⟨hp, hage⟩
    · rintro (⟨hp, hage⟩ | ⟨hcond, _⟩)
      · exact ⟨hp, hage⟩
      · exact absurd hcond h

/-- C3 counterexample: the spawner places a power-up on cell (5,5) even
though a snake occupies (5,5) — `spawn_powerup` draws an arbitrary grid
cell and performs no free-cell check against agents or the food. -/
theorem powerup_spawn_ignores_occupancy :
    ((PowerUpManager.update ⟨[], 0⟩ 11 0 spawnAtFive 0).1.active_powerups.map
        (fun p => p.position)) = [((5 : Int), (5 : Int))] ∧
    ((5 : Int), (5 : Int)) ∈ snakeOnFive.positions := by
  constructor
  · norm_num [PowerUpManager.update, spawn_interval, spawnPowerup, spawnAtFive]
    exact ⟨by decide, by decide⟩
  · decide

theorem mem_allCells (a b : ℕ) (ha : a < 60) (hb : b < 40) :
    ((a : Int), (b : Int)) ∈ allCells := by
  unfold allCells
  have hin : ((a : Int), (b : Int)) ∈
      (List.range 40).map (fun y => ((a : Int), (y : Int))) :=
    List.mem_map_of_mem (fun y : ℕ => ((a : Int), (y : Int))) (List.mem_range.mpr hb)
  exact List.mem_flatMap.mpr ⟨a, List.mem_range.mpr ha, hin⟩

theorem genCell_not_free_of_full (rng : CellStream) (k : ℕ) :
    cellFree [boardFillingSnake] (genCell rng k) = false := by
  have hmem : genCell rng k ∈ allCells :=
    mem_allCells ((rng k).1 : ℕ) ((rng k).2 : ℕ) (rng k).1.isLt (rng k).2.isLt
  unfold cellFree boardFillingSnake mkSnake
  simp [hmem]

theorem respawnSearch_full_board_none (rng : CellStream) :
    ∀ fuel k, respawnSearch rng [boardFillingSnake] fuel k = none := by
  intro fuel
  induction fuel with
  | zero => intro k; rfl
  | succ n ih =>
      intro k
      unfold respawnSearch
      rw [genCell_not_free_of_full rng k]
      simp only [Bool.false_eq_true, if_false]
      exact ih (k + 1)

/-- C4 counterexample: on a fully occupied grid the `while True` loop of
`respawn_food` never terminates, whatever the random stream produces —
there is no attempt bound and no no-op fallback. -/
theorem respawn_full_board_never_terminates : ¬ respawnEscapesFullBoard := by
  rintro ⟨rng, fuel, h⟩
  rw [respawnSearch_full_board_none rng fuel 0] at h
  exact Bool.noConfusion h

theorem respawnSearch_isSome_iff (rng : CellStream) (snakes : List Snake) :
    ∀ fuel k, (respawnSearch rng snakes fuel k).isSome = true ↔
      ∃ j, j < fuel ∧ cellFree snakes (genCell rng (k + j)) = true := by
  intro fuel
  induction fuel with
  | zero =>
      intro k
      simp [respawnSearch]
  | succ n ih =>
      intro k
      unfold respawnSearch
      by_cases h : cellFree snakes (genCell rng k) = true
      · simp only [h, if_true, Option.isSome_some, true_iff]
        exact ⟨0, Nat.succ_pos n, by simpa using h⟩
      · rw [if_neg (by simpa using h), ih (k + 1)]
        constructor
        · rintro ⟨j, hj, hfree⟩
          exact ⟨j + 1, Nat.succ_lt_succ hj, by
            have : k + 1 + j = k + (j + 1) := by ring
            rwa [this] at hfree⟩
        · rintro ⟨j, hj, hfree⟩
          match j with
          | 0 => exact absurd (by simpa using hfree) h
          | j + 1 =>
              exact ⟨j, Nat.lt_of_succ_lt_succ hj, by
                have : k + (j + 1) = k + 1 + j := by ring
                rwa [this] at hfree⟩

/-- C4 (amended): the free-cell search of `respawn_food` has no attempt
bound: unfolding the loop for `fuel` iterations succeeds exactly when one
of the first `fuel` random draws is a cell free of every snake; hence the
loop terminates iff the random stream eventually yields a free cell, and
runs forever otherwise. -/
theorem respawn_terminates_iff_eventually_free (rng : CellStream)
    (snakes : List Snake) (k : ℕ) :
    respawnTerminates rng snakes k ↔
      ∃ j, cellFree snakes (genCell rng (k + j)) = true := by
  constructor
  · rintro ⟨fuel, h⟩
    obtain ⟨j, _, hfree⟩ := (respawnSearch_isSome_iff rng snakes fuel k).mp h
    exact ⟨j, hfree⟩
  · rintro ⟨j, hfree⟩
    exact ⟨j + 1, (respawnSearch_isSome_iff rng snakes (j + 1) k).mpr
      ⟨j, Nat.lt_succ_self j, hfree⟩⟩

/-- C7: whenever the respawn loop terminates, the cell it returns is not
occupied by any body segment of any snake in the roster it was given. -/
theorem respawn_result_not_on_any_snake (rng : CellStream) (snakes : List Snake)
    (fuel k : ℕ) (c : Cell) (k' : ℕ)
    (h : respawnSearch rng snakes fuel k = some (c, k'))
    (s : Snake) (hs : s ∈ snakes) : c ∉ s.positions := by
  induction fuel generalizing k with
  | zero => exact absurd h (by simp [respawnSearch])
  | succ n ih =>
      unfold respawnSearch at h
      by_cases hfree : cellFree snakes (genCell rng k) = true
      · rw [if_pos hfree] at h
        obtain ⟨hc, _⟩ := Prod.mk.injEq .. ▸ Option.some.inj h
        subst hc
        have := (List.all_eq_true.mp hfree) s hs
        simpa using this
      · rw [if_neg (by simpa using hfree)] at h
        exact ih (k + 1) h

/-- Witness for C7: with a snake at (0,0)-(0,1) and a stream drawing (1,1),
the search succeeds at once and the returned cell avoids the snake. -/
theorem respawn_result_not_on_any_snake_witness :
    respawnSearch rngOneOne [mkSnake 1 [((0 : Int), (0 : Int)), (0, 1)] (1, 0)] 3 0 =
      some (((1 : Int), (1 : Int)), 1) ∧
    ((1 : Int), (1 : Int)) ∉ (mkSnake 1 [((0 : Int), (0 : Int)), (0, 1)] (1, 0)).positions :=
  ⟨by decide,
   respawn_result_not_on_any_snake rngOneOne _ 3 0 ((1 : Int), (1 : Int)) 1
     (by decide) _ (List.mem_singleton.mpr rfl)⟩

theorem foodPhase_nil (diff : Diff) (roster : List Snake) (rng : CellStream)
    (fuel : ℕ) (food : Food) (k : ℕ) :
    foodPhase diff roster rng fuel [] food k = some ([], food, k) := rfl

theorem foodPhase_getElem?_spec (diff : Diff) (roster : List Snake)
    (rng : CellStream) (fuel : ℕ) :
    ∀ (pairs : List (Snake × Bool)) (food : Food) (k : ℕ)
      (l : List Snake) (f : Food) (k2 : ℕ),
      foodPhase diff roster rng fuel pairs food k = some (l, f, k2) →
      ∀ (i : ℕ) (s : Snake) (wasAlive : Bool), pairs[i]? = some (s, wasAlive) →
      ∃ l0 fd kd,
        foodPhase diff roster rng fuel (List.take i pairs) food k = some (l0, fd, kd) ∧
        l[i]? = some (if wasAlive = true ∧ s.positions.headI = fd.position
                      then eatFood diff fd s else s) := by
  intro pairs
  induction pairs with
  | nil =>
      intro food k l f k2 h i s wA hi
      simp at hi
  | cons hd rest ih =>
      intro food k l f k2 h i s wA hi
      obtain ⟨s0, w0⟩ := hd
      by_cases hc : w0 = true ∧ s0.positions.headI = food.position
      · simp only [foodPhase, if_pos hc] at h
        cases hresp : respawnSearch rng roster fuel k with
        | none => simp only [hresp] at h; exact Option.noConfusion h
        | some ck =>
            obtain ⟨c, k1⟩ := ck
            simp only [hresp] at h
            cases hrec : foodPhase diff roster rng fuel rest
                { food with position := c } k1 with
            | none => simp only [hrec] at h; exact Option.noConfusion h
            | some triple =>
                obtain ⟨l', f', k2'⟩ := triple
                simp only [hrec, Option.some.injEq, Prod.mk.injEq] at h
                obtain ⟨hl, _, _⟩ := h
                cases i with
                | zero =>
                    simp only [List.getElem?_cons_zero, Option.some.injEq,
                      Prod.mk.injEq] at hi
                    obtain ⟨hs0, hw0⟩ := hi
                    subst hs0; subst hw0
                    refine ⟨[], food, k, foodPhase_nil _ _ _ _ _ _, ?_⟩
                    rw [← hl]
                    simp [hc]
                | succ n =>
                    simp only [List.getElem?_cons_succ] at hi
                    obtain ⟨l0, fd, kd, htake, hget⟩ :=
                      ih { food with position := c } k1 l' f' k2' hrec n s wA hi
                    refine ⟨eatFood diff food s0 :: l0, fd, kd, ?_, ?_⟩
                    · simp only [List.take_succ_cons, foodPhase, if_pos hc, hresp, htake]
                    · rw [← hl]
                      simpa using hget
      · simp only [foodPhase, if_neg hc] at h
        cases hrec : foodPhase diff roster rng fuel rest food k with
        | none => simp only [hrec] at h; exact Option.noConfusion h
        | some triple =>
            obtain ⟨l', f', k2'⟩ := triple
            simp only [hrec, Option.some.injEq, Prod.mk.injEq] at h
            obtain ⟨hl, _, _⟩ := h
            cases i with
            | zero =>
                simp only [List.getElem?_cons_zero, Option.some.injEq,
                  Prod.mk.injEq] at hi
                obtain ⟨hs0, hw0⟩ := hi
                subst hs0; subst hw0
                refine ⟨[], food, k, foodPhase_nil _ _ _ _ _ _, ?_⟩
                rw [← hl]
                simp [if_neg hc]
            | succ n =>
                simp only [List.getElem?_cons_succ] at hi
                obtain ⟨l0, fd, kd, htake, hget⟩ :=
                  ih food k l' f' k2' hrec n s wA hi
                refine ⟨s0 :: l0, fd, kd, ?_, ?_⟩
                · simp only [List.take_succ_cons, foodPhase, if_neg hc, htake]
                · rw [← hl]
                  simpa using hget

/-- C1 (amended): the food-pickup loop runs over exactly the agents of the
start-of-tick snapshot (alive before the movement step, including any that
became not-alive during movement): the i-th roster member is replaced by
`eatFood` — `grow(2)` plus `floor(food.value × multiplier)` points, doubled
under an active double-points entry, with the food respawned — exactly when
its snapshot flag is set and its (post-move) head equals the food position
current at its turn; otherwise it is left untouched. -/
theorem food_pickup_follows_snapshot (diff : Diff) (roster : List Snake)
    (rng : CellStream) (fuel : ℕ) (pairs : List (Snake × Bool)) (food : Food)
    (k : ℕ) (l : List Snake) (f : Food) (k2 : ℕ)
    (h : foodPhase diff roster rng fuel pairs food k = some (l, f, k2))
    (i : ℕ) (s : Snake) (wasAlive : Bool) (hi : pairs[i]? = some (s, wasAlive)) :
    ∃ l0 fd kd,
      foodPhase diff roster rng fuel (List.take i pairs) food k = some (l0, fd, kd) ∧
      l[i]? = some (if wasAlive = true ∧ s.positions.headI = fd.position
                    then eatFood diff fd s else s) :=
  foodPhase_getElem?_spec diff roster rng fuel pairs food k l f k2 h i s wasAlive hi

/-- Witness for C1 at a one-snake snapshot whose head sits on the food. -/
theorem food_pickup_follows_snapshot_witness :
    ∃ l0 fd kd,
      foodPhase EASY [wEater] rngOneOne 3 (List.take 0 [(wEater, true)]) wFood 0 =
        some (l0, fd, kd) ∧
      [eatFood EASY wFood wEater][0]? =
        some (if true = true ∧ wEater.positions.headI = fd.position
              then eatFood EASY fd wEater else wEater) :=
  food_pickup_follows_snapshot EASY [wEater] rngOneOne 3 [(wEater, true)] wFood 0
    [eatFood EASY wFood wEater] { wFood with position := ((1 : Int), (1 : Int)) } 1
    rfl 0 wEater true rfl

/-- C1 counterexample: an agent that dies against the wall during the
movement step of a tick is still checked for food pickup (the loop runs
over the pre-move snapshot): with the food under its unchanged head it
receives `grow(2)` although it is not alive after the movement step. -/
theorem food_pickup_reaches_move_dead_agent :
    (tick EASY false [wallEater] foodAtHead emptyPM 0 rngOneOne 0 3).map
        (fun o => o.snakes.map fun s => (s.alive, s.grow_pending)) =
      some [(false, 2)] ∧
    (Snake.move GRID_WIDTH GRID_HEIGHT wallEater).2 = false := by
  constructor <;> rfl

theorem hitsOther_eq_true_iff (head : Cell) (i : ℕ) :
    ∀ (l : List (Snake × Bool)) (n : ℕ),
      hitsOther head i l n = true ↔
        ∃ j t, l[j]? = some (t, true) ∧ n + j ≠ i ∧ head ∈ t.positions := by
  intro l
  induction l with
  | nil =>
      intro n
      simp [hitsOther]
  | cons hd rest ih =>
      intro n
      obtain ⟨t0, w0⟩ := hd
      simp only [hitsOther, Bool.or_eq_true, Bool.and_eq_true, decide_eq_true_eq]
      rw [ih (n + 1)]
      constructor
      · rintro (⟨⟨hw, hne⟩, hmem⟩ | ⟨j, t, hj, hne, hmem⟩)
        · exact ⟨0, t0, by simp [hw], by simpa using hne, hmem⟩
        · exact ⟨j + 1, t, by simpa using hj, by omega, hmem⟩
      · rintro ⟨j, t, hj, hne, hmem⟩
        cases j with
        | zero =>
            simp only [List.getElem?_cons_zero, Option.some.injEq, Prod.mk.injEq] at hj
            obtain ⟨ht, hw⟩ := hj
            subst ht
            exact Or.inl ⟨⟨hw, by simpa using hne⟩, hmem⟩
        | succ j =>
            simp only [List.getElem?_cons_succ] at hj
            exact Or.inr ⟨j, t, hj, by omega, hmem⟩

theorem collisionStepAll_getElem? (pairs : List (Snake × Bool)) :
    ∀ (l : List (Snake × Bool)) (n i : ℕ) (s : Snake) (wasAlive : Bool),
      l[i]? = some (s, wasAlive) →
      (collisionStepAll pairs l n)[i]? =
        some (if wasAlive = true ∧ s.invulnerable_time ≤ 0 ∧
                 hitsOther s.positions.headI (n + i) pairs 0 = true
              then { s with alive := false } else s) := by
  intro l
  induction l with
  | nil =>
      intro n i s wA hi
      simp at hi
  | cons hd rest ih =>
      intro n i s wA hi
      obtain ⟨s0, w0⟩ := hd
      cases i with
      | zero =>
          simp only [List.getElem?_cons_zero, Option.some.injEq, Prod.mk.injEq] at hi
          obtain ⟨hs0, hw0⟩ := hi
          subst hs0; subst hw0
          simp [collisionStepAll]
      | succ m =>
          simp only [List.getElem?_cons_succ] at hi
          have := ih (n + 1) m s wA hi
          simp only [collisionStepAll, List.getElem?_cons_succ]
          rw [this]
          have harith : n + 1 + m = n + (m + 1) := by omega
          rw [harith]

/-- C5 (amended): in a multi-agent tick the collision loop runs over the
ordered pairs of the *start-of-tick* snapshot (agents alive before the
movement step, including ones that died during movement): a snapshot member
with spent invulnerability becomes not-alive exactly when its post-move head
lies in the post-move body list of a snapshot member at a different index;
its body, score and growth counter are untouched.  Pass-through without
body overlap therefore never counts as a collision. -/
theorem collision_uses_snapshot (pairs : List (Snake × Bool))
    (hgate : 1 < (pairs.filter fun p => p.2).length)
    (i : ℕ) (s : Snake) (wasAlive : Bool) (hi : pairs[i]? = some (s, wasAlive)) :
    ∃ s', (collisionPhase true pairs)[i]? = some s' ∧
      s'.positions = s.positions ∧ s'.score = s.score ∧
      s'.grow_pending = s.grow_pending ∧
      (s'.alive = false ↔
        (s.alive = false ∨
         (wasAlive = true ∧ s.invulnerable_time ≤ 0 ∧
          ∃ j t, j ≠ i ∧ pairs[j]? = some (t, true) ∧
            s.positions.headI ∈ t.positions))) := by
  unfold collisionPhase
  rw [if_pos ⟨rfl, hgate⟩]
  rw [collisionStepAll_getElem? pairs pairs 0 i s wasAlive hi]
  by_cases hcond : wasAlive = true ∧ s.invulnerable_time ≤ 0 ∧
      hitsOther s.positions.headI (0 + i) pairs 0 = true
  · rw [if_pos hcond]
    obtain ⟨hw, hinv, hhits⟩ := hcond
    obtain ⟨j, t, hj, hne, hmem⟩ := (hitsOther_eq_true_iff _ _ pairs 0).mp hhits
    refine ⟨_, rfl, rfl, rfl, rfl, ?_⟩
    simp only [true_iff]
    exact Or.inr ⟨hw, hinv, j, t, by omega, hj, hmem⟩
  · rw [if_neg hcond]
    refine ⟨s, rfl, rfl, rfl, rfl, ?_⟩
    constructor
    · intro hdead
      exact Or.inl hdead
    · rintro (hdead | ⟨hw, hinv, j, t, hne, hj, hmem⟩)
      · exact hdead
      · exact absurd ⟨hw, hinv, (hitsOther_eq_true_iff _ _ pairs 0).mpr
          ⟨j, t, hj, by omega, hmem⟩⟩ hcond

/-- Witness for C5: the head-swap pass-through scenario.  After two length-1
snakes exchange cells, neither body holds the other's head, so the agent at
index 0 survives the collision step (its alive flag is not set to false). -/
theorem collision_uses_snapshot_witness :
    ∃ s', (collisionPhase true [(swapA, true), (swapB, true)])[0]? = some s' ∧
      s'.positions = swapA.positions ∧ s'.score = swapA.score ∧
      s'.grow_pending = swapA.grow_pending ∧
      (s'.alive = false ↔
        (swapA.alive = false ∨
         (true = true ∧ swapA.invulnerable_time ≤ 0 ∧
          ∃ j t, j ≠ 0 ∧ [(swapA, true), (swapB, true)][j]? = some (t, true) ∧
            swapA.positions.headI ∈ t.positions))) :=
  collision_uses_snapshot [(swapA, true), (swapB, true)] (by decide) 0 swapA true rfl

/-- C5 counterexample: agent B dies in the wall during the movement step of
the same tick, yet its (unchanged) body still kills agent A, because the
collision loop runs over the pre-move snapshot rather than over the agents
alive after movement.  A is alive after movement and no post-move-alive
agent other than A exists, so under the claim A should survive; the code
kills it. -/
theorem collision_kills_via_move_dead_body :
    (Snake.move GRID_WIDTH GRID_HEIGHT passA).1.alive = true ∧
    (Snake.move GRID_WIDTH GRID_HEIGHT passB).1.alive = false ∧
    (Snake.move GRID_WIDTH GRID_HEIGHT passA).1.invulnerable_time ≤ 0 ∧
    (tick EASY true [passA, passB] farFood emptyPM 0 rngOneOne 0 3).map
        (fun o => o.snakes.map fun s => s.alive) = some [false, false] := by
  refine ⟨rfl, rfl, by decide, rfl⟩

theorem eatFood_positions (diff : Diff) (food : Food) (s : Snake) :
    (eatFood diff food s).positions = s.positions := rfl

theorem eatFood_alive (diff : Diff) (food : Food) (s : Snake) :
    (eatFood diff food s).alive = s.alive := rfl

theorem add_power_up_alive (s : Snake) (t : PowerUpType) (d n : ℚ) :
    (s.add_power_up t d n).alive = s.alive := by
  cases t
  case shrink =>
    unfold Snake.add_power_up
    dsimp only
    split <;> rfl
  all_goals rfl

theorem add_power_up_positions (s : Snake) (t : PowerUpType) (d n : ℚ)
    (ht : t ≠ PowerUpType.shrink) :
    (s.add_power_up t d n).positions = s.positions := by
  cases t
  case shrink => exact absurd rfl ht
  all_goals rfl

theorem check_collision_some_mem (m : PowerUpManager) (c : Cell)
    (pu : PowerUp) (pm1 : PowerUpManager)
    (h : m.check_collision c = (some pu, pm1)) :
    pu ∈ m.active_powerups ∧ pm1.active_powerups ⊆ m.active_powerups := by
  unfold PowerUpManager.check_collision at h
  cases hf : m.active_powerups.find? (fun p => decide (p.position = c)) with
  | none => rw [hf] at h; exact absurd h (by simp)
  | some p =>
      rw [hf] at h
      simp only [Prod.mk.injEq, Option.some.injEq] at h
      obtain ⟨hp, hpm⟩ := h
      subst hp
      refine ⟨List.mem_of_find?_eq_some hf, ?_⟩
      rw [← hpm]
      exact fun x hx => List.erase_subset p m.active_powerups hx

theorem check_collision_none_eq (m : PowerUpManager) (c : Cell)
    (pm1 : PowerUpManager) (h : m.check_collision c = (none, pm1)) :
    pm1 = m := by
  unfold PowerUpManager.check_collision at h
  cases hf : m.active_powerups.find? (fun p => decide (p.position = c)) with
  | none =>
      rw [hf] at h
      simp only [Prod.mk.injEq] at h
      exact h.2.symm
  | some p => rw [hf] at h; exact absurd h (by simp)

theorem zip_getElem? {α β : Type} :
    ∀ (l1 : List α) (l2 : List β) (i : ℕ) (a : α) (b : β),
      l1[i]? = some a → l2[i]? = some b → (l1.zip l2)[i]? = some (a, b) := by
  intro l1
  induction l1 with
  | nil => intro l2 i a b h1 _; simp at h1
  | cons x xs ih =>
      intro l2 i a b h1 h2
      cases l2 with
      | nil => simp at h2
      | cons y ys =>
          cases i with
          | zero =>
              simp only [List.getElem?_cons_zero, Option.some.injEq] at h1 h2
              simp [List.zip_cons_cons, h1, h2]
          | succ n =>
              simp only [List.getElem?_cons_succ] at h1 h2
              simp only [List.zip_cons_cons, List.getElem?_cons_succ]
              exact ih ys n a b h1 h2

theorem powerupPhase_getElem? (diff : Diff) (now : ℚ) :
    ∀ (pairs : List (Snake × Bool)) (pm : PowerUpManager),
      (∀ pu ∈ pm.active_powerups, pu.type ≠ PowerUpType.shrink) →
      ∀ (i : ℕ) (s : Snake) (wasAlive : Bool), pairs[i]? = some (s, wasAlive) →
      ∃ s', (powerupPhase diff now pairs pm).1[i]? = some s' ∧
        s'.positions = s.positions ∧ s'.alive = s.alive ∧
        (wasAlive = false → s' = s) := by
  intro pairs
  induction pairs with
  | nil => intro pm _ i s wA hi; simp at hi
  | cons hd rest ih =>
      intro pm hpm i s wA hi
      obtain ⟨s0, w0⟩ := hd
      by_cases hcond : diff.powerups = true ∧ w0 = true
      · cases hf : pm.check_collision s0.positions.headI with
        | mk opu pm1 =>
          cases opu with
          | some pu =>
              obtain ⟨hmem, hsub⟩ := check_collision_some_mem pm _ pu pm1 hf
              have hty : pu.type ≠ PowerUpType.shrink := hpm pu hmem
              have hpm1 : ∀ q ∈ pm1.active_powerups, q.type ≠ PowerUpType.shrink :=
                fun q hq => hpm q (hsub hq)
              cases i with
              | zero =>
                  simp only [List.getElem?_cons_zero, Option.some.injEq,
                    Prod.mk.injEq] at hi
                  obtain ⟨hs0, hw0⟩ := hi
                  subst hs0; subst hw0
                  refine ⟨s0.add_power_up pu.type pu.duration now, ?_,
                    add_power_up_positions s0 pu.type pu.duration now hty,
                    add_power_up_alive s0 pu.type pu.duration now, ?_⟩
                  · simp only [powerupPhase, if_pos hcond, hf,
                      List.getElem?_cons_zero]
                  · intro hwf
                    rw [hwf] at hcond
                    exact absurd hcond.2 (by simp)
              | succ n =>
                  simp only [List.getElem?_cons_succ] at hi
                  obtain ⟨s', hget, hpos, halive, hframe⟩ := ih pm1 hpm1 n s wA hi
                  refine ⟨s', ?_, hpos, halive, hframe⟩
                  simp only [powerupPhase, if_pos hcond, hf, List.getElem?_cons_succ]
                  exact hget
          | none =>
              have hpm1 : pm1 = pm := check_collision_none_eq pm _ pm1 hf
              subst hpm1
              cases i with
              | zero =>
                  simp only [List.getElem?_cons_zero, Option.some.injEq,
                    Prod.mk.injEq] at hi
                  obtain ⟨hs0, hw0⟩ := hi
                  subst hs0; subst hw0
                  refine ⟨s0, ?_, rfl, rfl, fun _ => rfl⟩
                  simp only [powerupPhase, if_pos hcond, hf,
                    List.getElem?_cons_zero]
              | succ n =>
                  simp only [List.getElem?_cons_succ] at hi
                  obtain ⟨s', hget, hpos, halive, hframe⟩ := ih pm1 hpm n s wA hi
                  refine ⟨s', ?_, hpos, halive, hframe⟩
                  simp only [powerupPhase, if_pos hcond, hf, List.getElem?_cons_succ]
                  exact hget
      · cases i with
        | zero =>
            simp only [List.getElem?_cons_zero, Option.some.injEq,
              Prod.mk.injEq] at hi
            obtain ⟨hs0, hw0⟩ := hi
            subst hs0; subst hw0
            refine ⟨s0, ?_, rfl, rfl, fun _ => rfl⟩
            simp only [powerupPhase, if_neg hcond, List.getElem?_cons_zero]
        | succ n =>
            simp only [List.getElem?_cons_succ] at hi
            obtain ⟨s', hget, hpos, halive, hframe⟩ := ih pm hpm n s wA hi
            refine ⟨s', ?_, hpos, halive, hframe⟩
            simp only [powerupPhase, if_neg hcond, List.getElem?_cons_succ]
            exact hget

theorem collisionPhase_frame (mp : Bool) (pairs : List (Snake × Bool))
    (i : ℕ) (s : Snake) (wasAlive : Bool) (hi : pairs[i]? = some (s, wasAlive)) :
    ∃ s', (collisionPhase mp pairs)[i]? = some s' ∧
      s'.positions = s.positions ∧
      (s'.alive = true → s.alive = true) ∧
      (wasAlive = false → s' = s) := by
  unfold collisionPhase
  split_ifs with hg
  · rw [collisionStepAll_getElem? pairs pairs 0 i s wasAlive hi]
    by_cases hcond : wasAlive = true ∧ s.invulnerable_time ≤ 0 ∧
        hitsOther s.positions.headI (0 + i) pairs 0 = true
    · rw [if_pos hcond]
      refine ⟨_, rfl, rfl, ?_, ?_⟩
      · intro h; exact absurd h (by simp)
      · intro hwf
        rw [hwf] at hcond
        exact absurd hcond.1 (by simp)
    · rw [if_neg hcond]
      exact ⟨s, rfl, rfl, fun h => h, fun _ => rfl⟩
  · rw [List.getElem?_map, hi]
    exact ⟨s, rfl, rfl, fun h => h, fun _ => rfl⟩

theorem move_cases (W H : Int) (s : Snake) (ha : s.alive = true) :
    ((Snake.move W H s).2 = true →
      (Snake.move W H s).1.positions.length
        = s.positions.length + (if 0 < s.grow_pending then 1 else 0) ∧
      (Snake.move W H s).1.alive = true) ∧
    ((Snake.move W H s).2 = false →
      (Snake.move W H s).1 = { s with alive := false }) := by
  unfold Snake.move
  rw [if_neg (by simp [ha])]
  dsimp only
  by_cases h1 : s.wall_phase = false ∧
      (s.positions.headI.1 + s.direction.1 < 0 ∨ W ≤ s.positions.headI.1 + s.direction.1 ∨
       s.positions.headI.2 + s.direction.2 < 0 ∨ H ≤ s.positions.headI.2 + s.direction.2)
  · rw [if_pos h1]
    exact ⟨fun h => absurd h (by simp), fun _ => rfl⟩
  · rw [if_neg h1]
    by_cases h2 : s.invulnerable_time ≤ 0 ∧
        (if s.wall_phase = true
         then ((s.positions.headI.1 + s.direction.1) % W,
               (s.positions.headI.2 + s.direction.2) % H)
         else (s.positions.headI.1 + s.direction.1,
               s.positions.headI.2 + s.direction.2)) ∈ s.positions
    · rw [if_pos h2]
      exact ⟨fun h => absurd h (by simp), fun _ => rfl⟩
    · rw [if_neg h2]
      by_cases h3 : 0 < s.grow_pending
      · rw [if_pos h3]
        refine ⟨fun _ => ⟨?_, ha⟩, fun h => absurd h (by simp)⟩
        simp [h3]
      · rw [if_neg h3]
        refine ⟨fun _ => ⟨?_, ha⟩, fun h => absurd h (by simp)⟩
        simp [List.length_dropLast, h3]

/-- C8 (amended): in a tick where the spawner holds no shrink power-up, an
agent's body length after the tick equals its pre-tick length +1 if its
pending-growth counter was positive (its length is unchanged otherwise),
unless it died during the movement step, in which case the length stays
frozen at its pre-move value; agents dead before the tick are untouched.
(A collected shrink power-up additionally halves the body mid-tick, which
is why the no-shrink hypothesis is needed; deaths later in the tick — in
the collision step — freeze the already-moved length, which the stated
equation also covers since it only keys on the movement outcome.) -/
theorem tick_length_law (diff : Diff) (mp : Bool) (snakes : List Snake)
    (food : Food) (pm : PowerUpManager) (now : ℚ) (rng : CellStream)
    (k fuel : ℕ) (out : TickResult)
    (hpm : ∀ pu ∈ pm.active_powerups, pu.type ≠ PowerUpType.shrink)
    (ht : tick diff mp snakes food pm now rng k fuel = some out)
    (i : ℕ) (s : Snake) (hs : snakes[i]? = some s) :
    ∃ s', out.snakes[i]? = some s' ∧
      (s.alive = false → s' = s) ∧
      (s.alive = true →
        s'.positions.length =
          (if (Snake.move GRID_WIDTH GRID_HEIGHT s).2 = true
           then s.positions.length + (if 0 < s.grow_pending then 1 else 0)
           else s.positions.length) ∧
        (s'.alive = true → (Snake.move GRID_WIDTH GRID_HEIGHT s).2 = true)) := by
  unfold tick at ht
  cases hfp : foodPhase diff (movedOf snakes) rng fuel
      ((movedOf snakes).zip (maskOf snakes)) food k with
  | none => simp only [hfp] at ht; exact Option.noConfusion ht
  | some triple =>
      obtain ⟨fed, food1, k1⟩ := triple
      simp only [hfp] at ht
      have hout : out.snakes = collisionPhase mp
          ((powerupPhase diff now (fed.zip (maskOf snakes)) pm).1.zip
            (maskOf snakes)) := by
        rw [← Option.some.inj ht]
      have hm : (movedOf snakes)[i]? = some (Snake.move GRID_WIDTH GRID_HEIGHT s).1 := by
        simp [movedOf, List.getElem?_map, hs]
      have hmaski : (maskOf snakes)[i]? = some s.alive := by
        simp [maskOf, List.getElem?_map, hs]
      have hzip1 := zip_getElem? (movedOf snakes) (maskOf snakes) i _ _ hm hmaski
      obtain ⟨l0, fd, kd, _, hfed⟩ :=
        foodPhase_getElem?_spec diff (movedOf snakes) rng fuel
          ((movedOf snakes).zip (maskOf snakes)) food k fed food1 k1 hfp i _ _ hzip1
      set m1 := (Snake.move GRID_WIDTH GRID_HEIGHT s).1 with hm1def
      set s2 := if s.alive = true ∧ m1.positions.headI = fd.position
                then eatFood diff fd m1 else m1 with hs2def
      have hs2pos : s2.positions = m1.positions := by
        rw [hs2def]; split <;> rfl
      have hs2alive : s2.alive = m1.alive := by
        rw [hs2def]; split <;> rfl
      have hs2dead : s.alive = false → s2 = m1 := by
        intro hd
        rw [hs2def, if_neg]
        rintro ⟨h1, _⟩
        rw [hd] at h1
        exact absurd h1 (by simp)
      obtain ⟨s3, hs3get, hs3pos, hs3alive, hs3frame⟩ :=
        powerupPhase_getElem? diff now (fed.zip (maskOf snakes)) pm hpm i s2 s.alive
          (zip_getElem? fed (maskOf snakes) i s2 s.alive hfed hmaski)
      obtain ⟨s4, hs4get, hs4pos, hs4alive, hs4frame⟩ :=
        collisionPhase_frame mp
          ((powerupPhase diff now (fed.zip (maskOf snakes)) pm).1.zip (maskOf snakes))
          i s3 s.alive
          (zip_getElem? _ (maskOf snakes) i s3 s.alive hs3get hmaski)
      refine ⟨s4, by rw [hout]; exact hs4get, ?_, ?_⟩
      · intro hdead
        have hm1s : m1 = s := by rw [hm1def, move_of_dead _ _ s hdead]
        rw [hs4frame hdead, hs3frame hdead, hs2dead hdead, hm1s]
      · intro halive
        obtain ⟨hsurv, hdie⟩ := move_cases GRID_WIDTH GRID_HEIGHT s halive
        by_cases hmv : (Snake.move GRID_WIDTH GRID_HEIGHT s).2 = true
        · obtain ⟨hlen, _⟩ := hsurv hmv
          refine ⟨?_, fun _ => hmv⟩
          rw [if_pos hmv, hs4pos, hs3pos, hs2pos, hm1def]
          exact hlen
        · have hmvf : (Snake.move GRID_WIDTH GRID_HEIGHT s).2 = false := by
            revert hmv; cases (Snake.move GRID_WIDTH GRID_HEIGHT s).2 <;> simp
          have hm1dead := hdie hmvf
          refine ⟨?_, ?_⟩
          · rw [if_neg hmv, hs4pos, hs3pos, hs2pos, hm1def, hm1dead]
          · intro hs4a
            have h3a := hs4alive hs4a
            rw [hs3alive, hs2alive, hm1def, hm1dead] at h3a
            exact absurd h3a (by simp)

/-- Witness for C8: a tick of a single safe agent with an empty spawner. -/
theorem tick_length_law_witness :
    tick EASY false [demoSnake] farFood emptyPM 0 rngOneOne 0 3 = some c8out ∧
    ∃ s', c8out.snakes[0]? = some s' ∧
      (demoSnake.alive = false → s' = demoSnake) ∧
      (demoSnake.alive = true →
        s'.positions.length =
          (if (Snake.move GRID_WIDTH GRID_HEIGHT demoSnake).2 = true
           then demoSnake.positions.length +
             (if 0 < demoSnake.grow_pending then 1 else 0)
           else demoSnake.positions.length) ∧
        (s'.alive = true → (Snake.move GRID_WIDTH GRID_HEIGHT demoSnake).2 = true)) :=
  ⟨rfl, tick_length_law EASY false [demoSnake] farFood emptyPM 0 rngOneOne 0 3 c8out
      (by simp [emptyPM]) rfl 0 demoSnake rfl⟩

/-- C8 counterexample: a shrink power-up collected during a tick changes the
agent's length mid-tick.  A length-10 snake with zero pending growth moves
onto a shrink power-up and ends the tick alive with length 5 — neither its
previous length (10) nor previous length + 1. -/
theorem shrink_pickup_changes_length_mid_tick :
    (tick EASY false [tenSnake] farFood shrinkPM 0 rngOneOne 0 3).map
        (fun o => o.snakes.map fun s => (s.alive, s.positions.length)) =
      some [(true, 5)] ∧
    tenSnake.positions.length = 10 ∧ tenSnake.grow_pending = 0 := by
  exact ⟨rfl, rfl, rfl⟩

theorem pyfold_or (x a : Snake) : pyfold x a = a ∨ pyfold x a = x := by
  unfold pyfold
  split_ifs <;> simp

theorem pymax_foldl_mem : ∀ (l : List Snake) (x : Snake),
    l.foldl pyfold x = x ∨ l.foldl pyfold x ∈ l := by
  intro l
  induction l with
  | nil => intro x; exact Or.inl rfl
  | cons a l ih =>
      intro x
      rw [List.foldl_cons]
      rcases ih (pyfold x a) with h | h
      · rw [h]
        rcases pyfold_or x a with h2 | h2
        · rw [h2]; exact Or.inr (List.mem_cons_self a l)
        · rw [h2]; exact Or.inl rfl
      · exact Or.inr (List.mem_cons_of_mem a h)

theorem pymax_foldl_le : ∀ (l : List Snake) (x : Snake),
    x.score ≤ (l.foldl pyfold x).score ∧
      ∀ y ∈ l, y.score ≤ (l.foldl pyfold x).score := by
  intro l
  induction l with
  | nil => intro x; exact ⟨le_refl _, by simp⟩
  | cons a l ih =>
      intro x
      rw [List.foldl_cons]
      obtain ⟨h1, h2⟩ := ih (pyfold x a)
      have hxa : x.score ≤ (pyfold x a).score := by
        unfold pyfold
        split_ifs with h
        · exact le_of_lt h
        · exact le_refl _
      have haa : a.score ≤ (pyfold x a).score := by
        unfold pyfold
        split_ifs with h
        · exact le_refl _
        · exact le_of_not_lt h
      refine ⟨le_trans hxa h1, ?_⟩
      intro y hy
      rcases List.mem_cons.mp hy with rfl | hy2
      · exact le_trans haa h1
      · exact h2 y hy2

theorem pymax_foldl_tie : ∀ (l : List Snake) (x : Snake),
    (x :: l).Pairwise (fun u v => u.player_id < v.player_id) →
    ∀ y ∈ x :: l, y.score = (l.foldl pyfold x).score →
      (l.foldl pyfold x).player_id ≤ y.player_id := by
  intro l
  induction l with
  | nil =>
      intro x _ y hy hsc
      rcases List.mem_singleton.mp hy with rfl
      exact le_refl _
  | cons a l ih =>
      intro x hp y hy hsc
      rw [List.foldl_cons] at hsc ⊢
      have hpal : (a :: l).Pairwise (fun u v => u.player_id < v.player_id) :=
        (List.pairwise_cons.mp hp).2
      have hpxl : (x :: l).Pairwise (fun u v => u.player_id < v.player_id) := by
        rcases List.pairwise_cons.mp hp with ⟨hx, _⟩
        exact List.pairwise_cons.mpr
          ⟨fun z hz => hx z (List.mem_cons_of_mem a hz),
           (List.pairwise_cons.mp hpal).2⟩
      by_cases hxa : x.score < a.score
      · have hstep : pyfold x a = a := if_pos hxa
        rw [hstep] at hsc ⊢
        rcases List.mem_cons.mp hy with rfl | hy2
        · exfalso
          have hup : a.score ≤ (l.foldl pyfold a).score := (pymax_foldl_le l a).1
          have : y.score < (l.foldl pyfold a).score := lt_of_lt_of_le hxa hup
          rw [hsc] at this
          exact lt_irrefl _ this
        · exact ih a hpal y hy2 hsc
      · have hstep : pyfold x a = x := if_neg hxa
        rw [hstep] at hsc ⊢
        rcases List.mem_cons.mp hy with rfl | hy2
        · exact ih y hpxl y (List.mem_cons_self y l) hsc
        · rcases List.mem_cons.mp hy2 with rfl | hy3
          · have hxr : x.score ≤ (l.foldl pyfold x).score := (pymax_foldl_le l x).1
            have har : y.score ≤ x.score := le_of_not_lt hxa
            have hxscore : x.score = (l.foldl pyfold x).score :=
              le_antisymm hxr (by rw [← hsc]; exact har)
            have hrx := ih x hpxl x (List.mem_cons_self x l) hxscore
            have hxa2 : x.player_id < y.player_id :=
              (List.pairwise_cons.mp hp).1 y (List.mem_cons_self y l)
            exact le_of_lt (lt_of_le_of_lt hrx hxa2)
          · exact ih x hpxl y (List.mem_cons_of_mem x hy3) hsc

/-- C9: when no snake of a (player-id-sorted) roster is alive, the
game-over step records, in multiplayer, the score of python's
`max(snakes, key=score)`: a roster member of maximal score that has the
lowest player id among the agents sharing the maximum (first index wins
ties); in single-player it records exactly the first snake's score. -/
theorem game_over_records_first_max_winner (snakes : List Snake)
    (hne : snakes ≠ [])
    (hdead : ∀ s ∈ snakes, s.alive = false)
    (hsorted : snakes.Pairwise fun u v => u.player_id < v.player_id) :
    (∃ w, pymaxScore snakes = some w ∧ w ∈ snakes ∧
        (∀ s ∈ snakes, s.score ≤ w.score) ∧
        (∀ s ∈ snakes, s.score = w.score → w.player_id ≤ s.player_id) ∧
        recordOutcome true snakes = (true, some (w.score, true))) ∧
    recordOutcome false snakes =
      (true, snakes.head?.map fun s => (s.score, false)) := by
  have hall : snakes.all (fun s => !s.alive) = true :=
    List.all_eq_true.mpr fun s hs => by rw [hdead s hs]; rfl
  cases snakes with
  | nil => exact absurd rfl hne
  | cons x xs =>
      have hmem : xs.foldl pyfold x ∈ x :: xs := by
        rcases pymax_foldl_mem xs x with h | h
        · rw [h]; exact List.mem_cons_self x xs
        · exact List.mem_cons_of_mem x h
      have hle : ∀ s ∈ x :: xs, s.score ≤ (xs.foldl pyfold x).score := by
        intro s hs
        rcases List.mem_cons.mp hs with rfl | hs2
        · exact (pymax_foldl_le xs s).1
        · exact (pymax_foldl_le xs x).2 s hs2
      have htie : ∀ s ∈ x :: xs, s.score = (xs.foldl pyfold x).score →
          (xs.foldl pyfold x).player_id ≤ s.player_id :=
        fun s hs h => pymax_foldl_tie xs x hsorted s hs h
      refine ⟨⟨xs.foldl pyfold x, rfl, hmem, hle, htie, ?_⟩, ?_⟩
      · unfold recordOutcome
        rw [if_pos hall]
        simp [pymaxScore]
      · unfold recordOutcome
        rw [if_pos hall]
        simp

/-- Witness for C9: two dead snakes with tied score 5; the recorded winner
is the one with player id 1 (the first), scoring 5. -/
theorem game_over_records_first_max_winner_witness :
    ([tieA, tieB] ≠ ([] : List Snake)) ∧
    recordOutcome true [tieA, tieB] = (true, some ((5 : ℤ), true)) := by
  have h := game_over_records_first_max_winner [tieA, tieB] (by simp)
    (by
      intro s hs
      rcases List.mem_cons.mp hs with rfl | hs2
      · rfl
      · rcases List.mem_singleton.mp hs2 with rfl
        rfl)
    (by
      refine List.pairwise_cons.mpr ⟨?_, List.pairwise_singleton _ _⟩
      intro z hz
      rcases List.mem_singleton.mp hz with rfl
      decide)
  obtain ⟨⟨w, hmax, _, _, _, hrec⟩, _⟩ := h
  have hw : w = tieA := by
    have hcomp : pymaxScore [tieA, tieB] = some tieA := rfl
    rw [hcomp] at hmax
    exact (Option.some.inj hmax).symm
  rw [hw] at hrec
  exact ⟨by simp, hrec⟩
